import Mathlib

/-!
Verification development for the fc-ai-pd12m repository.

The repository aggregates per-shard metadata of the PD12M image dataset into
one global table.  The aggregation logic present in the sources lives in
notebooks/02-dv-join_data.ipynb: it enumerates parquet shard files, reads
them into polars dataframes, left-joins the downloaded shard metadata with
the original metadata on the url column, drops and renames columns, derives
parquet_id, image_path and aspect_ratio columns, and persists the result
through safe_write_ipc.

This file shallowly embeds that pipeline: a dataframe is a column-name list
together with rows of (column, value) cells, and each polars operation used
by the notebook is translated into a Lean function with the same observable
behaviour (left-join row multiplication and _right suffixing, strict
column-not-found errors for unguarded drop and rename, null propagation in
string concatenation and division, IEEE-style division by zero).

The components of the package fc_ai_pd12m itself (create_global_feather.py
with the dimension resolver, and utils.safe_write_ipc) are not among the
sources, only their callers and configuration are; those two are modelled
from the specification and marked as such in their doc comments.
-/

namespace PD12M

/-- Abstract model of a Float64 value as produced by polars division:
either an exact finite rational, an infinity, or NaN.  Rounding of finite
quotients to representable doubles is out of scope; the claims only concern
presence, absence and the zero-divisor behaviour. -/
inductive FloatVal where
  | finite (q : ℚ)
  | inf
  | negInf
  | nan
deriving DecidableEq, Repr

/-- A cell of a polars dataframe as used in the notebook: a Utf8 string, an
integer, a float, or null (missing). -/
inductive Value where
  | str (s : String)
  | int (n : Int)
  | float (f : FloatVal)
  | null
deriving DecidableEq, Repr

/-- One dataframe row: an association list from column name to cell value. -/
abbrev Row := List (String × Value)

/-- A polars dataframe: its column names and its rows. -/
structure DF where
  cols : List String
  rows : List Row
deriving DecidableEq, Repr

/-- Read the cell of column c in a row (first binding wins, as in an
association list); none when the row has no such cell. -/
def getCol (r : Row) (c : String) : Option Value :=
  (r.find? (fun p => p.1 == c)).map (fun p => p.2)

/-- A missing cell behaves as null. -/
def optV (o : Option Value) : Value :=
  o.getD Value.null

/-! ### Left join, as polars computes it for
downloaded_df.join(orig_df, on=url, how=left) -/

/-- Join-key match: both rows carry the key column, the values are equal,
and the value is not null (polars does not match null keys by default). -/
def keyMatches (key : String) (l r : Row) : Bool :=
  match getCol l key, getCol r key with
  | some v, some w => v == w && !(v == Value.null)
  | _, _ => false

/-- Output name of a non-key right-hand column: clashes with a left-hand
column receive the polars suffix _right. -/
def rightName (lcols : List String) (c : String) : String :=
  if lcols.contains c then c ++ "_right" else c

/-- The right-hand part of an output row for one matched right row: the key
column is coalesced away, clashing names are suffixed. -/
def rightOutRow (lcols : List String) (key : String) (r : Row) : Row :=
  (r.filter (fun p => !(p.1 == key))).map (fun p => (rightName lcols p.1, p.2))

/-- Output column names contributed by the right-hand side. -/
def rightOutCols (lcols rcols : List String) (key : String) : List String :=
  (rcols.filter (fun c => !(c == key))).map (rightName lcols)

/-- Null-filled right-hand part for a left row without any match. -/
def nullRightRow (lcols rcols : List String) (key : String) : Row :=
  (rightOutCols lcols rcols key).map (fun c => (c, Value.null))

/-- Rows produced by one left row: one output row per matching right row,
or a single null-extended row when nothing matches. -/
def joinRowsFor (ldf rdf : DF) (key : String) (l : Row) : List Row :=
  match rdf.rows.filter (fun r => keyMatches key l r) with
  | [] => [l ++ nullRightRow ldf.cols rdf.cols key]
  | ms => ms.map (fun r => l ++ rightOutRow ldf.cols key r)

/-- polars left join on a single key column. -/
def leftJoin (ldf rdf : DF) (key : String) : DF :=
  { cols := ldf.cols ++ rightOutCols ldf.cols rdf.cols key,
    rows := ldf.rows.flatMap (joinRowsFor ldf rdf key) }

/-! ### Drop, rename and with_columns steps of the notebook -/

/-- The drop candidates of the notebook cell
columns_to_drop, keeping only candidates present in the columns. -/
def candidateDrops : List String :=
  ["error_message", "status", "width", "height",
   "original_width", "original_height", "sha256",
   "hash", "caption_right", "id"]

/-- The rename mapping of the notebook:
width_right to image_width, height_right to image_height, key to image_id. -/
def columnsToRename : List (String × String) :=
  [("width_right", "image_width"),
   ("height_right", "image_height"),
   ("key", "image_id")]

/-- Unconditional column removal. -/
def dropCols (df : DF) (cs : List String) : DF :=
  { cols := df.cols.filter (fun c => !(cs.contains c)),
    rows := df.rows.map (fun r => r.filter (fun p => !(cs.contains p.1))) }

/-- polars df.drop: errors when a requested column is absent. -/
def dropStrict (df : DF) (cs : List String) : Except String DF :=
  if cs.all (fun c => df.cols.contains c) then .ok (dropCols df cs)
  else .error "ColumnNotFoundError"

/-- Column name after applying a rename mapping. -/
def applyRenameName (m : List (String × String)) (c : String) : String :=
  match m.find? (fun p => p.1 == c) with
  | some p => p.2
  | none => c

/-- Whether a list of column names holds the same name twice. -/
def hasDup : List String → Bool
  | [] => false
  | c :: t => t.contains c || hasDup t

/-- polars df.rename: errors when a mapping key is absent
(ColumnNotFoundError), and when a name of the resulting schema occurs more
than once — renaming onto a column name that already exists in the table —
it raises DuplicateError, since polars column names must be unique. -/
def renameStrict (df : DF) (m : List (String × String)) : Except String DF :=
  if m.all (fun p => df.cols.contains p.1) then
    if hasDup (df.cols.map (applyRenameName m)) then .error "DuplicateError"
    else
      .ok { cols := df.cols.map (applyRenameName m),
            rows := df.rows.map (fun r => r.map (fun q => (applyRenameName m q.1, q.2))) }
  else .error "ColumnNotFoundError"

/-- The guarded drop-then-rename sequence of the notebook: drop only the
candidate columns that are present, rename only the mapping keys that are
present. -/
def dropRenameSteps (df : DF) : Except String DF := do
  let toDrop := candidateDrops.filter (fun c => df.cols.contains c)
  let df1 ← dropStrict df toDrop
  let existingKeys := (columnsToRename.map (fun p => p.1)).filter
      (fun k => df1.cols.contains k)
  let df2 ← renameStrict df1 (columnsToRename.filter (fun p => existingKeys.contains p.1))
  pure df2

/-- Replace (or append) the cell of column c in a row, as with_columns does. -/
def setCell (r : Row) (c : String) (v : Value) : Row :=
  r.filter (fun p => !(p.1 == c)) ++ [(c, v)]

/-- Column list after with_columns introduced (or replaced) column c. -/
def setColName (cols : List String) (c : String) : List String :=
  cols.filter (fun d => !(d == c)) ++ [c]

/-- polars with_columns of one derived column: errors when a referenced
column is absent (ColumnNotFoundError), otherwise computes the new cell
row by row. -/
def withColumnStrict (df : DF) (needed : List String) (c : String)
    (f : Row → Value) : Except String DF :=
  if needed.all (fun n => df.cols.contains n) then
    .ok { cols := setColName df.cols c,
          rows := df.rows.map (fun r => setCell r c (f r)) }
  else .error "ColumnNotFoundError"

/-- polars Expr.str.slice(0, 5) followed by cast(Utf8): the first five
characters of a string cell, null otherwise. -/
def strSlice5 (v : Option Value) : Value :=
  match v with
  | some (.str s) => .str (s.take 5)
  | _ => .null

/-- polars string concatenation: null unless both operands are strings. -/
def concatV (a b : Value) : Value :=
  match a, b with
  | .str x, .str y => .str (x ++ y)
  | _, _ => .null

/-- polars integer true division cast to Float64: null propagates; a zero
divisor yields an infinity (or NaN for zero over zero) exactly as the
float division does after the implicit cast. -/
def divVal (a b : Value) : Value :=
  match a, b with
  | .int w, .int h =>
      if h = 0 then
        if w > 0 then .float .inf
        else if w < 0 then .float .negInf
        else .float .nan
      else .float (.finite ((w : ℚ) / (h : ℚ)))
  | _, _ => .null

/-- Cell of the derived parquet_id column. -/
def parquetIdVal (r : Row) : Value :=
  strSlice5 (getCol r "image_id")

/-- Cell of the derived image_path column:
parquet_id + "/" + image_id + ".jpg". -/
def imagePathVal (r : Row) : Value :=
  concatV (concatV (concatV (optV (getCol r "parquet_id")) (.str "/"))
            (optV (getCol r "image_id"))) (.str ".jpg")

/-- Cell of the derived aspect_ratio column:
image_width / image_height cast to Float64. -/
def aspectRatioVal (r : Row) : Value :=
  divVal (optV (getCol r "image_width")) (optV (getCol r "image_height"))

/-- The whole formatting cell of the notebook: guarded drop and rename,
then the three with_columns derivations. -/
def formatJoined (df : DF) : Except String DF := do
  let df2 ← dropRenameSteps df
  let df3 ← withColumnStrict df2 ["image_id"] "parquet_id" parquetIdVal
  let df4 ← withColumnStrict df3 ["parquet_id", "image_id"] "image_path" imagePathVal
  let df5 ← withColumnStrict df4 ["image_width", "image_height"] "aspect_ratio" aspectRatioVal
  pure df5

/-! ### Shard enumeration (the "Read data" cell of the notebook) -/

/-- A file name matches the glob *.parquet exactly when its character
sequence ends with the characters of ".parquet". -/
def matchesParquetGlob (f : String) : Bool :=
  (".parquet".data).isSuffixOf f.data

/-- The glob *.parquet: the eligible shard files among a listing. -/
def eligibleShards (listing : List String) : List String :=
  listing.filter matchesParquetGlob

/-- The local enumeration of the notebook: raises FileNotFoundError when the
folder does not exist, and again when the folder holds no parquet file. -/
def enumerateLocal (folderExists : Bool) (listing : List String) :
    Except String (List String) :=
  if !folderExists then .error "FileNotFoundError: folder does not exist"
  else if (eligibleShards listing).isEmpty then
    .error "FileNotFoundError: no parquet files found"
  else .ok (eligibleShards listing)

/-- The remote enumeration of the notebook over the s3 glob: raises
FileNotFoundError when no parquet file matches. -/
def enumerateRemote (listing : List String) : Except String (List String) :=
  if (eligibleShards listing).isEmpty then
    .error "FileNotFoundError: no parquet files found"
  else .ok (eligibleShards listing)

/-! ### Dimension resolver -/

/-- Raw bytes of an object. -/
abbrev Bytes := List Nat

/-- The ways a fetch of one object can fail. -/
inductive FetchError where
  | timeout
  | missingObject (path : String)
  | transportError (msg : String)
deriving DecidableEq, Repr

/-- The ways decoding an image header can fail. -/
inductive DecodeError where
  | corruptImage
  | unsupportedFormat (fmt : String)
deriving DecidableEq, Repr

/-- The tagged outcome of resolving the dimensions of one image. -/
inductive ResolveResult where
  | ok (width height : Nat)
  | failed (reason : String)
deriving DecidableEq, Repr

/-- Human-readable reason attached to a fetch failure. -/
def fetchErrorReason : FetchError → String
  | .timeout => "timeout"
  | .missingObject p => "object not found: " ++ p
  | .transportError m => "transport error: " ++ m

/-- Human-readable reason attached to a decode failure. -/
def decodeErrorReason : DecodeError → String
  | .corruptImage => "corrupt image"
  | .unsupportedFormat f => "unsupported image format: " ++ f

/-- Modelled from the spec: the Dimension Resolver lives in
src/fc_ai_pd12m/create_global_feather.py, which is not among the sources
(only its invocations in the shell scripts are).  Per the specification it
fetches one object and decodes enough of it to obtain width and height,
converting every fetch or decode error into the failed variant with a
reason string instead of raising.  The fetch outcome and the decoder are
passed in as values, so every error path is explicit. -/
def resolveDimensions (fetched : Except FetchError Bytes)
    (decode : Bytes → Except DecodeError (Nat × Nat)) : ResolveResult :=
  match fetched with
  | .error e => .failed (fetchErrorReason e)
  | .ok bs =>
      match decode bs with
      | .error e => .failed (decodeErrorReason e)
      | .ok wh => .ok wh.1 wh.2

/-! ### Safe writer -/

/-- The observable filesystem state the safe writer touches: the content at
the destination path and the content at its temporary path, each possibly
absent. -/
structure FsState where
  dest : Option Bytes
  tmp : Option Bytes
deriving DecidableEq, Repr

/-- One atomic action of the writer: append a chunk to the temporary
artifact, or commit the temporary artifact onto the destination in a
single rename. -/
inductive WriteStep where
  | append (b : Bytes)
  | commit
deriving DecidableEq, Repr

/-- Effect of one write action on the filesystem. -/
def execStep (st : FsState) : WriteStep → FsState
  | .append b => { st with tmp := some (st.tmp.getD [] ++ b) }
  | .commit => { dest := st.tmp, tmp := none }

/-- The script of the writer: append every chunk, then commit once, last. -/
def writeScript (chunks : List Bytes) : List WriteStep :=
  chunks.map WriteStep.append ++ [WriteStep.commit]

/-- The cleanup the writer performs on any failure: the temporary artifact
is removed, nothing else is touched. -/
def cleanupTmp (st : FsState) : FsState :=
  { st with tmp := none }

/-- Modelled from the spec: safe_write_ipc lives in
src/fc_ai_pd12m/utils.py, which is not among the sources (only its import
and call site in the notebook are).  Per the specification it streams the
serialized table into a temporary artifact and commits it with one atomic
rename as the very last step; on any error it deletes the temporary
artifact and leaves the destination alone.  failAt counts how many actions
completed before the failure; none means the run completes. -/
def runSafeWrite (st : FsState) (chunks : List Bytes) (failAt : Option Nat) :
    FsState × Bool :=
  match failAt with
  | none => ((writeScript chunks).foldl execStep st, true)
  | some i => (cleanupTmp (((writeScript chunks).take i).foldl execStep st), false)

/-! ### The whole notebook run -/

/-- Byte rendering of one cell, used only to give the writer real content. -/
def encodeValue : Value → Bytes
  | .str s => s.data.map Char.toNat
  | .int n => [n.natAbs]
  | .float _ => [0]
  | .null => []

/-- Byte rendering of one row. -/
def encodeRow (r : Row) : Bytes :=
  r.flatMap (fun p => p.1.data.map Char.toNat ++ encodeValue p.2)

/-- IPC serialization: one chunk per row. -/
def serializeDF (df : DF) : List Bytes :=
  df.rows.map encodeRow

/-- Inputs of one notebook run: whether the local metadata folder exists,
the two directory listings, and the dataframes obtained from reading the
parquet files. -/
structure RunConfig where
  origExists : Bool
  origListing : List String
  dlListing : List String
  origDF : DF
  dlDF : DF
deriving Repr

/-- One end-to-end run of the notebook: enumerate the original and the
downloaded shard files (each failure is fatal and leaves the filesystem
untouched), left-join downloaded onto original metadata on url, format the
joined table, and hand it to the safe writer. -/
def runPipeline (cfg : RunConfig) (st : FsState) (failAt : Option Nat) :
    Except String Unit × FsState :=
  match enumerateLocal cfg.origExists cfg.origListing with
  | .error e => (.error e, st)
  | .ok _ =>
    match enumerateRemote cfg.dlListing with
    | .error e => (.error e, st)
    | .ok _ =>
      match formatJoined (leftJoin cfg.dlDF cfg.origDF "url") with
      | .error e => (.error e, st)
      | .ok outDF =>
          let res := runSafeWrite st (serializeDF outDF) failAt
          (if res.2 then .ok () else .error "write failed", res.1)

/-! ### Named subterms of the formatting pipeline, used to state lemmas -/

/-- Row transformation of the parquet_id with_columns step. -/
def deriveParquetId (r : Row) : Row := setCell r "parquet_id" (parquetIdVal r)

/-- Row transformation of the image_path with_columns step. -/
def deriveImagePath (r : Row) : Row := setCell r "image_path" (imagePathVal r)

/-- Row transformation of the aspect_ratio with_columns step. -/
def deriveAspect (r : Row) : Row := setCell r "aspect_ratio" (aspectRatioVal r)

/-- All three derivation steps, in notebook order. -/
def deriveAll (r : Row) : Row := deriveAspect (deriveImagePath (deriveParquetId r))

/-- The drop list the notebook actually passes to drop. -/
def notebookDrops (df : DF) : List String :=
  candidateDrops.filter (fun c => df.cols.contains c)

/-- The dataframe after the guarded drop of the notebook. -/
def droppedDF (df : DF) : DF :=
  dropCols df (notebookDrops df)

/-- The existing_keys list of the notebook for a given column set. -/
def renameKeysFor (cols : List String) : List String :=
  (columnsToRename.map (fun p => p.1)).filter (fun k => cols.contains k)

/-- The rename mapping the notebook actually passes to rename. -/
def renameMapFor (cols : List String) : List (String × String) :=
  columnsToRename.filter (fun p => (renameKeysFor cols).contains p.1)

/-- Column list of a pipeline result, empty on error. -/
def colsOfResult (e : Except String DF) : List String :=
  match e with
  | .ok d => d.cols
  | .error _ => []

/-- Rows of a pipeline result, empty on error. -/
def rowsOfResult (e : Except String DF) : List Row :=
  match e with
  | .ok d => d.rows
  | .error _ => []

/-- First row of a pipeline result, empty on error or when no rows exist. -/
def firstRowOf (e : Except String DF) : Row :=
  match e with
  | .ok d => d.rows.headD []
  | .error _ => []

/-! ### Concrete fixtures used by witnesses and counterexamples -/

/-- A small downloaded-shards metadata table (the left side of the join):
one successfully downloaded record and one failed download. -/
def sampleDl : DF :=
  { cols := ["url", "key", "status", "error_message", "width", "height", "caption"],
    rows := [
      [("url", .str "u1"), ("key", .str "abcde123"), ("status", .str "success"),
       ("error_message", .null), ("width", .int 100), ("height", .int 50),
       ("caption", .str "a cat")],
      [("url", .str "u2"), ("key", .str "fghij456"), ("status", .str "failed"),
       ("error_message", .str "timed out"), ("width", .null), ("height", .null),
       ("caption", .str "a dog")]] }

/-- A small original-metadata table (the right side of the join) with
unique url keys; u2 has no counterpart, u3 is never downloaded. -/
def sampleOrig : DF :=
  { cols := ["url", "caption", "width", "height"],
    rows := [
      [("url", .str "u1"), ("caption", .str "a cat"), ("width", .int 100),
       ("height", .int 50)],
      [("url", .str "u3"), ("caption", .str "a bird"), ("width", .int 640),
       ("height", .int 480)]] }

/-- An original-metadata table in which the join key u1 occurs twice. -/
def sampleOrigDup : DF :=
  { cols := ["url", "caption", "width", "height"],
    rows := [
      [("url", .str "u1"), ("caption", .str "a"), ("width", .int 1), ("height", .int 2)],
      [("url", .str "u1"), ("caption", .str "b"), ("width", .int 3), ("height", .int 4)]] }

/-- An original-metadata table recording a zero image height for u1. -/
def zeroHeightOrig : DF :=
  { cols := ["url", "caption", "width", "height"],
    rows := [
      [("url", .str "u1"), ("caption", .str "a"), ("width", .int 7), ("height", .int 0)]] }

/-- The joined table of the two sample inputs. -/
def joinedSample : DF := leftJoin sampleDl sampleOrig "url"

/-- The joined table when the right side duplicates the key u1. -/
def joinedDupSample : DF := leftJoin sampleDl sampleOrigDup "url"

/-- The joined table against the zero-height metadata. -/
def joinedZeroSample : DF := leftJoin sampleDl zeroHeightOrig "url"

/-- The formatted sample table (the error branch is never taken on this
input, as the witnesses prove). -/
def formattedSample : DF :=
  match formatJoined joinedSample with
  | .ok d => d
  | .error _ => { cols := [], rows := [] }

/-- The first row of the formatted sample table. -/
def sampleRow : Row := formattedSample.rows.headD []

/-- The formatted table over the zero-height metadata. -/
def formattedZeroSample : DF :=
  match formatJoined joinedZeroSample with
  | .ok d => d
  | .error _ => { cols := [], rows := [] }

/-- The first row of the formatted zero-height table. -/
def zeroRow : Row := formattedZeroSample.rows.headD []

/-- The sample table after the drop and rename steps alone. -/
def renamedSample : DF :=
  match dropRenameSteps joinedSample with
  | .ok d => d
  | .error _ => { cols := [], rows := [] }

/-- A run configuration over the sample tables. -/
def sampleRun : RunConfig :=
  { origExists := true, origListing := ["meta-000.parquet"],
    dlListing := ["part-000.parquet"], origDF := sampleOrig, dlDF := sampleDl }

/-- A run configuration whose original metadata duplicates a join key. -/
def dupRun : RunConfig :=
  { origExists := true, origListing := ["meta-000.parquet"],
    dlListing := ["part-000.parquet"], origDF := sampleOrigDup, dlDF := sampleDl }

/-- A run configuration whose input location holds no parquet file. -/
def emptyRun : RunConfig :=
  { origExists := true, origListing := ["meta-000.parquet"],
    dlListing := ["readme.md"], origDF := sampleOrig, dlDF := sampleDl }

/-- An initially empty filesystem. -/
def fs0 : FsState := { dest := none, tmp := none }

/-! ### Association-list and cell lemmas -/

theorem find?_filter_ne (r : Row) (c d : String) (h : d ≠ c) :
    (r.filter (fun p => !(p.1 == c))).find? (fun p => p.1 == d) =
      r.find? (fun p => p.1 == d) := by
  have hcd : (c == d) = false := by simpa using fun hcd => h hcd.symm
  have hdc : (d == c) = false := by simpa using h
  induction r with
  | nil => rfl
  | cons p t ih =>
      by_cases hpc : p.1 = c
      · have hpd : (p.1 == d) = false := by
          simpa [hpc] using fun hdc => h hdc.symm
        simp [List.filter_cons, hpc, List.find?_cons, hpd, ih, hcd]
      · by_cases hpd : p.1 = d
        · simp [List.filter_cons, hpc, List.find?_cons, hpd, hdc]
        · simp [List.filter_cons, hpc, List.find?_cons, hpd, ih]

theorem getCol_setCell_self (r : Row) (c : String) (v : Value) :
    getCol (setCell r c v) c = some v := by
  have h1 : (r.filter (fun p => !(p.1 == c))).find? (fun p => p.1 == c) = none := by
    rw [List.find?_eq_none]
    intro x hx
    simp only [List.mem_filter] at hx
    simpa using hx.2
  simp [getCol, setCell, List.find?_append, h1, List.find?_singleton]

theorem getCol_setCell_ne (r : Row) (c d : String) (v : Value) (h : d ≠ c) :
    getCol (setCell r c v) d = getCol r d := by
  have h2 : (c == d) = false := by simpa using fun hcd => h hcd.symm
  simp [getCol, setCell, List.find?_append, List.find?_singleton, h2,
    find?_filter_ne r c d h]

/-! ### Shape of a successful formatting run -/

theorem withColumnStrict_ok {df out : DF} {needed : List String} {c : String}
    {f : Row → Value} (h : withColumnStrict df needed c f = .ok out) :
    out.cols = setColName df.cols c ∧
      out.rows = df.rows.map (fun r => setCell r c (f r)) := by
  unfold withColumnStrict at h
  split at h
  · cases h
    exact ⟨rfl, rfl⟩
  · cases h

theorem formatJoined_ok (df out : DF) (h : formatJoined df = .ok out) :
    ∃ base : DF, dropRenameSteps df = .ok base ∧
      out.rows = base.rows.map deriveAll ∧
      out.cols = setColName (setColName (setColName base.cols "parquet_id")
        "image_path") "aspect_ratio" := by
  unfold formatJoined at h
  cases h2 : dropRenameSteps df with
  | error e => rw [h2] at h; simp [bind, Except.bind] at h
  | ok base =>
      rw [h2] at h
      simp only [bind, Except.bind] at h
      cases h3 : withColumnStrict base ["image_id"] "parquet_id" parquetIdVal with
      | error e => rw [h3] at h; simp at h
      | ok df3 =>
          rw [h3] at h
          dsimp only at h
          cases h4 : withColumnStrict df3 ["parquet_id", "image_id"] "image_path"
              imagePathVal with
          | error e => rw [h4] at h; simp at h
          | ok df4 =>
              rw [h4] at h
              dsimp only at h
              cases h5 : withColumnStrict df4 ["image_width", "image_height"]
                  "aspect_ratio" aspectRatioVal with
              | error e => rw [h5] at h; simp at h
              | ok df5 =>
                  rw [h5] at h
                  dsimp only at h
                  simp only [pure, Except.pure] at h
                  cases h
                  obtain ⟨hc3, hr3⟩ := withColumnStrict_ok h3
                  obtain ⟨hc4, hr4⟩ := withColumnStrict_ok h4
                  obtain ⟨hc5, hr5⟩ := withColumnStrict_ok h5
                  refine ⟨base, rfl, ?_, ?_⟩
                  · rw [hr5, hr4, hr3]
                    simp [deriveAll, deriveAspect, deriveImagePath, deriveParquetId,
                      List.map_map, Function.comp]
                  · rw [hc5, hc4, hc3]

/-! ### Shape of the drop and rename steps -/

theorem filter_contains_all (cols cs : List String) :
    ((cs.filter (fun c => cols.contains c)).all fun c => cols.contains c) = true := by
  simp only [List.all_eq_true, List.mem_filter]
  exact fun a ha => ha.2

theorem rename_filter_all (cols : List String) :
    ((columnsToRename.filter (fun p =>
        ((columnsToRename.map (fun p => p.1)).filter (fun k => cols.contains k)).contains p.1)).all
      fun p => cols.contains p.1) = true := by
  simp only [List.all_eq_true, List.mem_filter]
  intro p hp
  have h2 := hp.2
  simp only [List.elem_iff, List.mem_filter] at h2
  exact List.elem_iff.mpr h2.2

theorem dropRenameSteps_never_missing (df : DF) (e : String)
    (h : dropRenameSteps df = .error e) : e = "DuplicateError" := by
  unfold dropRenameSteps dropStrict renameStrict at h
  simp only [bind, Except.bind, pure, filter_contains_all, rename_filter_all,
    if_true] at h
  split at h
  · rename_i heq
    cases h
    split at heq
    · cases heq
      rfl
    · cases heq
  · cases h

theorem dropRenameSteps_ok_inv (df base : DF) (h : dropRenameSteps df = .ok base) :
    base.cols = (droppedDF df).cols.map (applyRenameName (renameMapFor (droppedDF df).cols)) ∧
    base.rows = (droppedDF df).rows.map (fun r =>
      r.map (fun q => (applyRenameName (renameMapFor (droppedDF df).cols) q.1, q.2))) := by
  unfold dropRenameSteps dropStrict renameStrict at h
  simp only [bind, Except.bind, pure, filter_contains_all, rename_filter_all,
    if_true] at h
  split at h
  · cases h
  · rename_i heq
    cases h
    split at heq
    · cases heq
    · cases heq
      exact ⟨rfl, rfl⟩

theorem applyRenameName_filter (m : List (String × String)) (q : String × String → Bool)
    (c : String) (hq : ∀ p ∈ m, p.1 = c → q p = true) :
    applyRenameName (m.filter q) c = applyRenameName m c := by
  induction m with
  | nil => rfl
  | cons p t ih =>
      by_cases hpc : p.1 = c
      · have : q p = true := hq p (List.mem_cons_self p t) hpc
        simp [applyRenameName, List.filter_cons, this, List.find?_cons, hpc]
      · have hb : (p.1 == c) = false := beq_false_of_ne hpc
        have ih2 := ih (fun x hx => hq x (List.mem_cons_of_mem p hx))
        by_cases hqp : q p = true
        · simpa [applyRenameName, List.filter_cons, hqp, List.find?_cons, hb]
            using ih2
        · simp only [Bool.not_eq_true] at hqp
          simpa [applyRenameName, List.filter_cons, hqp, List.find?_cons, hb]
            using ih2

theorem applyRenameName_renameMapFor (cols : List String) (c : String) (hc : c ∈ cols) :
    applyRenameName (renameMapFor cols) c = applyRenameName columnsToRename c := by
  unfold renameMapFor
  refine applyRenameName_filter _ _ _ (fun p hp hpc => ?_)
  simp only [renameKeysFor, List.elem_iff, List.mem_filter, List.mem_map]
  exact ⟨⟨p, hp, rfl⟩, by rw [hpc]; exact hc⟩

theorem applyRenameName_concrete (c : String) :
    applyRenameName columnsToRename c =
      if c = "width_right" then "image_width"
      else if c = "height_right" then "image_height"
      else if c = "key" then "image_id"
      else c := by
  by_cases h1 : c = "width_right"
  · simp [applyRenameName, columnsToRename, List.find?_cons, h1]
  · by_cases h2 : c = "height_right"
    · simp [applyRenameName, columnsToRename, List.find?_cons, h1, h2]
    · by_cases h3 : c = "key"
      · simp [applyRenameName, columnsToRename, List.find?_cons, h1, h2, h3]
      · simp [applyRenameName, columnsToRename, List.find?_cons, h1, h2, h3,
          beq_false_of_ne (Ne.symm h1), beq_false_of_ne (Ne.symm h2),
          beq_false_of_ne (Ne.symm h3)]

theorem mem_dropCols (df : DF) (cs : List String) (c : String) :
    c ∈ (dropCols df cs).cols ↔ c ∈ df.cols ∧ cs.contains c = false := by
  simp [dropCols, List.mem_filter]

theorem mem_setColName (cols : List String) (c d : String) :
    d ∈ setColName cols c ↔ d = c ∨ (d ∈ cols ∧ d ≠ c) := by
  simp only [setColName, List.mem_append, List.mem_filter, List.mem_singleton]
  constructor
  · rintro (⟨hd, hne⟩ | hd)
    · exact Or.inr ⟨hd, by simpa using hne⟩
    · exact Or.inl hd
  · rintro (hd | ⟨hd, hne⟩)
    · exact Or.inr hd
    · exact Or.inl ⟨hd, by simpa using hne⟩

/-! ### Join row-count lemmas -/

theorem length_joinRowsFor_eq_max (ldf rdf : DF) (key : String) (l : Row) :
    (joinRowsFor ldf rdf key l).length =
      max 1 (rdf.rows.filter (fun r => keyMatches key l r)).length := by
  unfold joinRowsFor
  cases h : rdf.rows.filter (fun r => keyMatches key l r) with
  | nil => rfl
  | cons x xs => simp [Nat.max_eq_right (Nat.succ_le_succ (Nat.zero_le _))]

theorem leftJoin_length (ldf rdf : DF) (key : String) :
    (leftJoin ldf rdf key).rows.length =
      (ldf.rows.map (fun l =>
        max 1 (rdf.rows.filter (fun r => keyMatches key l r)).length)).sum := by
  unfold leftJoin
  rw [List.length_flatMap]
  congr 1
  refine List.map_congr_left (fun l _ => ?_)
  exact length_joinRowsFor_eq_max ldf rdf key l

theorem leftJoin_length_of_unique (ldf rdf : DF) (key : String)
    (h : ∀ l ∈ ldf.rows, (rdf.rows.filter (fun r => keyMatches key l r)).length ≤ 1) :
    (leftJoin ldf rdf key).rows.length = ldf.rows.length := by
  rw [leftJoin_length]
  have hmax : ∀ l ∈ ldf.rows,
      max 1 (rdf.rows.filter (fun r => keyMatches key l r)).length = 1 := by
    intro l hl
    exact Nat.max_eq_left (h l hl)
  calc (ldf.rows.map (fun l =>
        max 1 (rdf.rows.filter (fun r => keyMatches key l r)).length)).sum
      = (ldf.rows.map (fun _ => 1)).sum := by
        exact congrArg List.sum (List.map_congr_left hmax)
    _ = ldf.rows.length := by simp

/-! ### Safe writer lemmas -/

theorem dest_foldl_append (bs : List Bytes) (st : FsState) :
    ((bs.map WriteStep.append).foldl execStep st).dest = st.dest := by
  induction bs generalizing st with
  | nil => rfl
  | cons b t ih => simpa [List.foldl_cons, execStep] using ih _

theorem runSafeWrite_fail (st : FsState) (chunks : List Bytes) (i : Nat)
    (h : i ≤ chunks.length) :
    runSafeWrite st chunks (some i) = ({ dest := st.dest, tmp := none }, false) := by
  unfold runSafeWrite
  dsimp only
  have htake : (writeScript chunks).take i = (chunks.take i).map WriteStep.append := by
    unfold writeScript
    rw [List.take_append_of_le_length (by simpa using h), List.map_take]
  rw [htake]
  simp only [cleanupTmp, Prod.mk.injEq, FsState.mk.injEq, and_true]
  exact dest_foldl_append _ _

/-! ### Non-empty reason strings -/

theorem fetchErrorReason_pos (e : FetchError) : 0 < (fetchErrorReason e).length := by
  cases e with
  | timeout => decide
  | missingObject p =>
      show 0 < ("object not found: " ++ p).length
      rw [String.length_append]
      have h0 : 0 < ("object not found: ").length := by decide
      omega
  | transportError m =>
      show 0 < ("transport error: " ++ m).length
      rw [String.length_append]
      have h0 : 0 < ("transport error: ").length := by decide
      omega

theorem decodeErrorReason_pos (e : DecodeError) : 0 < (decodeErrorReason e).length := by
  cases e with
  | corruptImage => decide
  | unsupportedFormat f =>
      show 0 < ("unsupported image format: " ++ f).length
      rw [String.length_append]
      have h0 : 0 < ("unsupported image format: ").length := by decide
      omega

theorem mem_base_cols (df base : DF) (h : dropRenameSteps df = .ok base) (d : String) :
    d ∈ base.cols ↔ ∃ c ∈ (droppedDF df).cols, applyRenameName columnsToRename c = d := by
  rw [(dropRenameSteps_ok_inv df base h).1]
  simp only [List.mem_map]
  constructor
  · rintro ⟨c, hc, rfl⟩
    exact ⟨c, hc, (applyRenameName_renameMapFor _ c hc).symm⟩
  · rintro ⟨c, hc, rfl⟩
    exact ⟨c, hc, applyRenameName_renameMapFor _ c hc⟩

theorem candidate_not_in_dropped (df : DF) (c : String) (hc : c ∈ candidateDrops) :
    c ∉ (droppedDF df).cols := by
  intro hmem
  rw [droppedDF, mem_dropCols] at hmem
  obtain ⟨hdf, hcontains⟩ := hmem
  have hmm : c ∈ notebookDrops df :=
    List.mem_filter.mpr ⟨hc, List.elem_iff.mpr hdf⟩
  have htrue : (notebookDrops df).contains c = true := List.elem_iff.mpr hmm
  simp [htrue] at hcontains
  exact hcontains hmm

theorem not_mem_setColName (cols : List String) (c d : String) (hne : d ≠ c)
    (hd : d ∉ cols) : d ∉ setColName cols c := by
  intro hmem
  rcases (mem_setColName cols c d).mp hmem with h1 | ⟨h2, _⟩
  · exact hne h1
  · exact hd h2

theorem applyRenameName_origin (c d : String)
    (h : applyRenameName columnsToRename c = d) :
    (c = d ∧ c ≠ "width_right" ∧ c ≠ "height_right" ∧ c ≠ "key") ∨
    (c = "width_right" ∧ d = "image_width") ∨
    (c = "height_right" ∧ d = "image_height") ∨
    (c = "key" ∧ d = "image_id") := by
  rw [applyRenameName_concrete] at h
  by_cases h1 : c = "width_right"
  · rw [if_pos h1] at h
    exact Or.inr (Or.inl ⟨h1, h.symm⟩)
  · rw [if_neg h1] at h
    by_cases h2 : c = "height_right"
    · rw [if_pos h2] at h
      exact Or.inr (Or.inr (Or.inl ⟨h2, h.symm⟩))
    · rw [if_neg h2] at h
      by_cases h3 : c = "key"
      · rw [if_pos h3] at h
        exact Or.inr (Or.inr (Or.inr ⟨h3, h.symm⟩))
      · rw [if_neg h3] at h
        exact Or.inl ⟨h, h1, h2, h3⟩

theorem dropped_candidate_not_in_base (df base : DF)
    (h : dropRenameSteps df = .ok base) (d : String) (hd : d ∈ candidateDrops)
    (hW : d ≠ "image_width") (hH : d ≠ "image_height") (hI : d ≠ "image_id") :
    d ∉ base.cols := by
  intro hmem
  rw [mem_base_cols df base h d] at hmem
  obtain ⟨c, hc, hcd⟩ := hmem
  rcases applyRenameName_origin c d hcd with ⟨rfl, _⟩ | ⟨_, hdd⟩ | ⟨_, hdd⟩ | ⟨_, hdd⟩
  · exact candidate_not_in_dropped df c hd hc
  · exact hW hdd
  · exact hH hdd
  · exact hI hdd

theorem not_mem_base_of (df base : DF) (h : dropRenameSteps df = .ok base)
    (d : String) (horig : ∀ c, applyRenameName columnsToRename c = d → c ∉ df.cols) :
    d ∉ base.cols := by
  intro hmem
  rw [mem_base_cols df base h d] at hmem
  obtain ⟨c, hc, hcd⟩ := hmem
  have hc2 : c ∈ (dropCols df (notebookDrops df)).cols := hc
  exact horig c hcd ((mem_dropCols df (notebookDrops df) c).mp hc2).1

theorem headD_mem {α : Type} (l : List α) (d : α) (h : 0 < l.length) :
    l.headD d ∈ l := by
  cases l with
  | nil => simp at h
  | cons a t => exact List.mem_cons_self a t

theorem mem_rows_formatJoined (df out : DF) (row : Row)
    (h : formatJoined df = .ok out) (hr : row ∈ out.rows) :
    ∃ r : Row, row = deriveAll r := by
  obtain ⟨base, _, hrows, _⟩ := formatJoined_ok _ _ h
  rw [hrows] at hr
  obtain ⟨r, _, hmap⟩ := List.mem_map.mp hr
  exact ⟨r, hmap.symm⟩

theorem getCol_deriveAll_aspect (r : Row) :
    getCol (deriveAll r) "aspect_ratio" =
      some (aspectRatioVal (deriveImagePath (deriveParquetId r))) := by
  unfold deriveAll deriveAspect
  exact getCol_setCell_self _ _ _

theorem getCol_deriveAll_other (r : Row) (d : String)
    (h1 : d ≠ "aspect_ratio") (h2 : d ≠ "image_path") (h3 : d ≠ "parquet_id") :
    getCol (deriveAll r) d = getCol r d := by
  unfold deriveAll deriveAspect deriveImagePath deriveParquetId
  rw [getCol_setCell_ne _ _ _ _ h1, getCol_setCell_ne _ _ _ _ h2,
    getCol_setCell_ne _ _ _ _ h3]

theorem getCol_intermediate (r : Row) (d : String)
    (h2 : d ≠ "image_path") (h3 : d ≠ "parquet_id") :
    getCol (deriveImagePath (deriveParquetId r)) d = getCol r d := by
  unfold deriveImagePath deriveParquetId
  rw [getCol_setCell_ne _ _ _ _ h2, getCol_setCell_ne _ _ _ _ h3]

theorem divVal_null_left (b : Value) : divVal .null b = .null := by
  cases b <;> rfl

theorem divVal_null_right (a : Value) : divVal a .null = .null := by
  cases a <;> rfl

/-! ## Claims -/

/-- Counterexample to claim C1 as stated: when the original-metadata side
repeats a join key, a shard record appears more than once, so the final
table holds three rows although only two shard records were enumerated. -/
theorem c1_row_count_counterexample :
    sampleDl.rows.length = 2 ∧
      joinedDupSample.rows.length = 3 ∧
      (rowsOfResult (formatJoined joinedDupSample)).length = 3 :=
  ⟨rfl, rfl, rfl⟩

/-- Claim C1 as amended: provided every enumerated shard record matches at
most one record of the dimension table (in particular whenever the right
side has unique join keys), the left join is key-preserving and
outer-biased toward the shard metadata — every shard record yields exactly
one output row whether or not it found a match — and the formatted output
row count equals the enumerated record count. -/
theorem c1_row_count (ldf rdf out : DF)
    (h1 : ∀ l ∈ ldf.rows,
      (rdf.rows.filter (fun r => keyMatches "url" l r)).length ≤ 1)
    (h2 : formatJoined (leftJoin ldf rdf "url") = .ok out) :
    out.rows.length = ldf.rows.length := by
  obtain ⟨base, hb, hrows, _⟩ := formatJoined_ok _ _ h2
  rw [hrows, (dropRenameSteps_ok_inv _ _ hb).2]
  simp only [List.length_map, droppedDF, dropCols]
  exact leftJoin_length_of_unique ldf rdf "url" h1

/-- Witness for C1: on the sample tables with unique right-side keys the
formatted output has exactly as many rows as the downloaded shard table. -/
theorem c1_row_count_witness :
    formattedSample.rows.length = sampleDl.rows.length :=
  c1_row_count sampleDl sampleOrig formattedSample (by decide) (by rfl)

/-- Claim C2: for every execution of the Safe Writer, if any error occurs
before the single atomic commit step (modelled as the failure point being
any index up to the number of chunks, so strictly before the final commit
action), the destination is left exactly as it was — absent or holding its
previous content, never a truncated file — and the temporary artifact is
cleaned up.  Spec-modelled: safe_write_ipc itself is not among the
sources. -/
theorem c2_safe_write_atomic (st : FsState) (chunks : List Bytes) (i : Nat)
    (h : i ≤ chunks.length) :
    (runSafeWrite st chunks (some i)).1.dest = st.dest ∧
      (runSafeWrite st chunks (some i)).1.tmp = none ∧
      (runSafeWrite st chunks (some i)).2 = false := by
  rw [runSafeWrite_fail st chunks i h]
  exact ⟨rfl, rfl, rfl⟩

/-- Witness for C2: a writer over two chunks that fails after the first
chunk leaves a pre-existing destination intact and no temporary file. -/
theorem c2_safe_write_atomic_witness :
    (runSafeWrite { dest := some [7], tmp := none } [[1], [2]] (some 1)).1.dest = some [7] ∧
      (runSafeWrite { dest := some [7], tmp := none } [[1], [2]] (some 1)).1.tmp = none ∧
      (runSafeWrite { dest := some [7], tmp := none } [[1], [2]] (some 1)).2 = false :=
  c2_safe_write_atomic { dest := some [7], tmp := none } [[1], [2]] 1 (by decide)

/-- Claim C3: the Dimension Resolver always returns a tagged result — ok
with the two dimensions or failed with a reason — and every fetch error
and every decode error is converted into the failed variant carrying a
non-empty human-readable reason string; nothing is ever raised to the
caller.  Spec-modelled: the resolver of create_global_feather.py is not
among the sources. -/
theorem c3_resolver_tagged (fetched : Except FetchError Bytes)
    (decode : Bytes → Except DecodeError (Nat × Nat)) :
    ((∃ w hgt, resolveDimensions fetched decode = .ok w hgt) ∨
      (∃ reason, resolveDimensions fetched decode = .failed reason ∧ 0 < reason.length)) ∧
    (∀ e, fetched = .error e →
      resolveDimensions fetched decode = .failed (fetchErrorReason e) ∧
        0 < (fetchErrorReason e).length) ∧
    (∀ bs e, fetched = .ok bs → decode bs = .error e →
      resolveDimensions fetched decode = .failed (decodeErrorReason e) ∧
        0 < (decodeErrorReason e).length) := by
  refine ⟨?_, ?_, ?_⟩
  · cases fetched with
    | error e => exact Or.inr ⟨fetchErrorReason e, rfl, fetchErrorReason_pos e⟩
    | ok bs =>
        cases hd : decode bs with
        | error e =>
            refine Or.inr ⟨decodeErrorReason e, ?_, decodeErrorReason_pos e⟩
            simp [resolveDimensions, hd]
        | ok wh =>
            refine Or.inl ⟨wh.1, wh.2, ?_⟩
            simp [resolveDimensions, hd]
  · rintro e rfl
    exact ⟨rfl, fetchErrorReason_pos e⟩
  · rintro bs e rfl hd
    refine ⟨?_, decodeErrorReason_pos e⟩
    simp [resolveDimensions, hd]

/-- Witness for C3: a timed-out fetch resolves to the failed variant with
the non-empty reason string of the timeout. -/
theorem c3_resolver_tagged_witness :
    ((∃ w hgt, resolveDimensions (Except.error FetchError.timeout)
        (fun _ => Except.error DecodeError.corruptImage) = .ok w hgt) ∨
      (∃ reason, resolveDimensions (Except.error FetchError.timeout)
        (fun _ => Except.error DecodeError.corruptImage) = .failed reason ∧
          0 < reason.length)) ∧
    (∀ e, (Except.error FetchError.timeout : Except FetchError Bytes) = .error e →
      resolveDimensions (Except.error FetchError.timeout)
        (fun _ => Except.error DecodeError.corruptImage) = .failed (fetchErrorReason e) ∧
        0 < (fetchErrorReason e).length) ∧
    (∀ bs e, (Except.error FetchError.timeout : Except FetchError Bytes) = .ok bs →
      (fun _ => Except.error DecodeError.corruptImage : Bytes → Except DecodeError (Nat × Nat)) bs = .error e →
      resolveDimensions (Except.error FetchError.timeout)
        (fun _ => Except.error DecodeError.corruptImage) = .failed (decodeErrorReason e) ∧
        0 < (decodeErrorReason e).length) :=
  c3_resolver_tagged (Except.error FetchError.timeout)
    (fun _ => Except.error DecodeError.corruptImage)

/-- Counterexample to claim C4 as stated: on a joined table that does
carry a status column, the drop step of the Aggregator removes it, so the final
table has no status field (and no error_message field) in any row. -/
theorem c4_status_counterexample :
    joinedSample.cols.contains "status" = true ∧
      (formatJoined joinedSample).isOk = true ∧
      (colsOfResult (formatJoined joinedSample)).contains "status" = false ∧
      (colsOfResult (formatJoined joinedSample)).contains "error_message" = false ∧
      getCol sampleRow "status" = none :=
  ⟨rfl, rfl, rfl, rfl, rfl⟩

/-- Claim C4 as amended: the final table carries no status field at all,
and no error_message field either — both columns are in the
drop list of the Aggregator, so no row of any formatted output has them; a failed
resolution is visible only as null dimension columns. -/
theorem c4_no_status_column (df out : DF) (h : formatJoined df = .ok out) :
    "status" ∉ out.cols ∧ "error_message" ∉ out.cols := by
  obtain ⟨base, hb, _, hcols⟩ := formatJoined_ok _ _ h
  constructor
  · rw [hcols]
    refine not_mem_setColName _ _ _ (by decide) ?_
    refine not_mem_setColName _ _ _ (by decide) ?_
    refine not_mem_setColName _ _ _ (by decide) ?_
    exact dropped_candidate_not_in_base df base hb "status" (by decide)
      (by decide) (by decide) (by decide)
  · rw [hcols]
    refine not_mem_setColName _ _ _ (by decide) ?_
    refine not_mem_setColName _ _ _ (by decide) ?_
    refine not_mem_setColName _ _ _ (by decide) ?_
    exact dropped_candidate_not_in_base df base hb "error_message" (by decide)
      (by decide) (by decide) (by decide)

/-- Witness for C4: the formatted sample table has neither a status nor an
error_message column. -/
theorem c4_no_status_column_witness :
    "status" ∉ formattedSample.cols ∧ "error_message" ∉ formattedSample.cols :=
  c4_no_status_column joinedSample formattedSample (by rfl)

/-- Counterexample to claim C5 as stated: a record with a present width of
7 and a present height of 0 gets a computed, present aspect_ratio of
positive infinity, although the claim requires the quotient never to be
computed for a zero height. -/
theorem c5_aspect_ratio_counterexample :
    getCol zeroRow "image_width" = some (.int 7) ∧
      getCol zeroRow "image_height" = some (.int 0) ∧
      getCol zeroRow "aspect_ratio" = some (.float .inf) :=
  ⟨rfl, rfl, rfl⟩

/-- Claim C5 as amended: aspect_ratio is the float64 quotient
image_width / image_height, computed whenever both dimensions are present
integers — for a zero height it is an infinity (or NaN for zero over
zero) rather than being left absent — and it is null whenever either
dimension is null. -/
theorem c5_aspect_ratio (df out : DF) (row : Row) (h : formatJoined df = .ok out)
    (hr : row ∈ out.rows) :
    (∀ w hgt : Int, getCol row "image_width" = some (.int w) →
      getCol row "image_height" = some (.int hgt) →
      getCol row "aspect_ratio" = some (
        if hgt = 0 then
          (if w > 0 then Value.float .inf
           else if w < 0 then Value.float .negInf
           else Value.float .nan)
        else Value.float (.finite ((w : ℚ) / (hgt : ℚ))))) ∧
    ((getCol row "image_width" = some .null ∨ getCol row "image_height" = some .null) →
      getCol row "aspect_ratio" = some .null) := by
  obtain ⟨r, rfl⟩ := mem_rows_formatJoined df out row h hr
  have haspect := getCol_deriveAll_aspect r
  constructor
  · intro w hgt hwid hhgt
    have hw4 : getCol (deriveImagePath (deriveParquetId r)) "image_width"
        = some (.int w) := by
      rw [getCol_intermediate r _ (by decide) (by decide)]
      rw [← getCol_deriveAll_other r "image_width" (by decide) (by decide) (by decide)]
      exact hwid
    have hh4 : getCol (deriveImagePath (deriveParquetId r)) "image_height"
        = some (.int hgt) := by
      rw [getCol_intermediate r _ (by decide) (by decide)]
      rw [← getCol_deriveAll_other r "image_height" (by decide) (by decide) (by decide)]
      exact hhgt
    rw [haspect]
    simp only [aspectRatioVal, hw4, hh4, optV, Option.getD]
    rfl
  · intro hnull
    rw [haspect]
    rcases hnull with hnul | hnul
    · have hw4 : getCol (deriveImagePath (deriveParquetId r)) "image_width"
          = some .null := by
        rw [getCol_intermediate r _ (by decide) (by decide)]
        rw [← getCol_deriveAll_other r "image_width" (by decide) (by decide) (by decide)]
        exact hnul
      simp only [aspectRatioVal, hw4, optV, Option.getD, divVal_null_left]
    · have hh4 : getCol (deriveImagePath (deriveParquetId r)) "image_height"
          = some .null := by
        rw [getCol_intermediate r _ (by decide) (by decide)]
        rw [← getCol_deriveAll_other r "image_height" (by decide) (by decide) (by decide)]
        exact hnul
      simp only [aspectRatioVal, hh4, optV, Option.getD, divVal_null_right]

/-- Witness for C5: the amended statement applied to the first row of the
formatted zero-height sample table. -/
theorem c5_aspect_ratio_witness :
    (∀ w hgt : Int, getCol zeroRow "image_width" = some (.int w) →
      getCol zeroRow "image_height" = some (.int hgt) →
      getCol zeroRow "aspect_ratio" = some (
        if hgt = 0 then
          (if w > 0 then Value.float .inf
           else if w < 0 then Value.float .negInf
           else Value.float .nan)
        else Value.float (.finite ((w : ℚ) / (hgt : ℚ))))) ∧
    ((getCol zeroRow "image_width" = some .null ∨
        getCol zeroRow "image_height" = some .null) →
      getCol zeroRow "aspect_ratio" = some .null) :=
  c5_aspect_ratio joinedZeroSample formattedZeroSample zeroRow (by rfl)
    (headD_mem _ _ (by decide))

/-- Claim C7: for every record of a formatted table whose image_id is a
string s, the derived image_path is the concatenation of the shard prefix
(the first five characters of s), a slash, s itself, and the .jpg
extension the notebook appends. -/
theorem c7_image_path (df out : DF) (row : Row) (s : String)
    (h : formatJoined df = .ok out) (hr : row ∈ out.rows)
    (hid : getCol row "image_id" = some (.str s)) :
    getCol row "image_path" = some (.str (s.take 5 ++ "/" ++ s ++ ".jpg")) := by
  obtain ⟨r, rfl⟩ := mem_rows_formatJoined df out row h hr
  have hidr : getCol r "image_id" = some (.str s) := by
    rw [← getCol_deriveAll_other r "image_id" (by decide) (by decide) (by decide)]
    exact hid
  have hip : getCol (deriveAll r) "image_path" =
      some (imagePathVal (deriveParquetId r)) := by
    unfold deriveAll deriveAspect
    rw [getCol_setCell_ne _ _ _ _ (by decide)]
    unfold deriveImagePath
    exact getCol_setCell_self _ _ _
  have hpq : getCol (deriveParquetId r) "parquet_id" = some (parquetIdVal r) := by
    unfold deriveParquetId
    exact getCol_setCell_self _ _ _
  have hid2 : getCol (deriveParquetId r) "image_id" = some (.str s) := by
    unfold deriveParquetId
    rw [getCol_setCell_ne _ _ _ _ (by decide)]
    exact hidr
  rw [hip]
  simp only [imagePathVal, hpq, hid2, optV, Option.getD, parquetIdVal, hidr,
    strSlice5, concatV]

/-- Witness for C7: the first sample record with image_id abcde123 has
image_path abcde/abcde123.jpg. -/
theorem c7_image_path_witness :
    getCol sampleRow "image_path" =
      some (.str ("abcde123".take 5 ++ "/" ++ "abcde123" ++ ".jpg")) :=
  c7_image_path joinedSample formattedSample sampleRow "abcde123" (by rfl)
    (headD_mem _ _ (by decide)) (by rfl)

/-- Counterexample to claim C6 as stated: a run whose original metadata
repeats the join key u1 does not terminate with an error — the pipeline
completes, writes the output file, and the duplicated key has multiplied
the two shard records into three output rows. -/
theorem c6_duplicate_keys_counterexample :
    (runPipeline dupRun fs0 none).1.isOk = true ∧
      ((runPipeline dupRun fs0 none).2.dest).isSome = true ∧
      sampleDl.rows.length = 2 ∧
      (rowsOfResult (formatJoined joinedDupSample)).length = 3 :=
  ⟨rfl, rfl, rfl, rfl⟩

/-- Claim C6 as amended: duplicate join-key values are not detected at
all — the join never fails and silently multiplies rows instead: the
output row count is the sum, over the shard records, of the number of
matching right-side records (with one null-extended row when nothing
matches), where a match is exact equality of the non-null key values. -/
theorem c6_duplicate_keys_multiply (ldf rdf : DF) (key : String) :
    (leftJoin ldf rdf key).rows.length =
      (ldf.rows.map (fun l =>
        max 1 (rdf.rows.filter (fun r => keyMatches key l r)).length)).sum :=
  leftJoin_length ldf rdf key

/-- Claim C9: after the join, the Aggregator renames columns by exactly
the mapping width_right to image_width, height_right to image_height and
key to image_id, and leaves every other column name unchanged. -/
theorem c9_rename_mapping (df base : DF) (h : dropRenameSteps df = .ok base) :
    base.cols = (droppedDF df).cols.map (fun c =>
        if c = "width_right" then "image_width"
        else if c = "height_right" then "image_height"
        else if c = "key" then "image_id" else c) ∧
    applyRenameName columnsToRename "width_right" = "image_width" ∧
    applyRenameName columnsToRename "height_right" = "image_height" ∧
    applyRenameName columnsToRename "key" = "image_id" ∧
    (∀ c, c ≠ "width_right" → c ≠ "height_right" → c ≠ "key" →
      applyRenameName columnsToRename c = c) := by
  refine ⟨?_, rfl, rfl, rfl, ?_⟩
  · rw [(dropRenameSteps_ok_inv df base h).1]
    refine List.map_congr_left (fun c hc => ?_)
    rw [applyRenameName_renameMapFor _ c hc, applyRenameName_concrete]
  · intro c h1 h2 h3
    rw [applyRenameName_concrete, if_neg h1, if_neg h2, if_neg h3]

/-- Witness for C9: the rename mapping applied to the sample joined
table. -/
theorem c9_rename_mapping_witness :
    renamedSample.cols = (droppedDF joinedSample).cols.map (fun c =>
        if c = "width_right" then "image_width"
        else if c = "height_right" then "image_height"
        else if c = "key" then "image_id" else c) ∧
    applyRenameName columnsToRename "width_right" = "image_width" ∧
    applyRenameName columnsToRename "height_right" = "image_height" ∧
    applyRenameName columnsToRename "key" = "image_id" ∧
    (∀ c, c ≠ "width_right" → c ≠ "height_right" → c ≠ "key" →
      applyRenameName columnsToRename c = c) :=
  c9_rename_mapping joinedSample renamedSample (by rfl)

/-- Counterexample to claim C10 as stated: on a joined table that lacks
width_right but already holds a column named image_width, the guarded
steps succeed and yet the output does contain image_width — the absence of
width_right does not make the output lack image_width; and on a joined
table holding both width_right and image_width the guard passes but the
rename raises the polars duplicate-name error, so the steps do fail. -/
theorem c10_guarded_counterexample :
    (dropRenameSteps { cols := ["image_width"], rows := [] }).isOk = true ∧
      (["image_width"] : List String).contains "width_right" = false ∧
      (colsOfResult (dropRenameSteps { cols := ["image_width"], rows := [] })).contains
        "image_width" = true ∧
      dropRenameSteps { cols := ["width_right", "image_width"], rows := [] } =
        .error "DuplicateError" :=
  ⟨rfl, rfl, rfl, rfl⟩

/-- Claim C10 as amended: the drop and rename steps are guarded by column
presence, so an absent listed column is silently skipped and the steps
never fail on a missing column — the only failure they can produce is the
duplicate-name error raised when a rename target name already exists in
the table; and whenever the steps succeed with width_right, height_right
or key absent from the input, the output lacks image_width, image_height
or image_id respectively, unless a column of that name was already
present in the input. -/
theorem c10_guarded_steps (df : DF) :
    (∀ e, dropRenameSteps df = .error e → e = "DuplicateError") ∧
    (∀ out, dropRenameSteps df = .ok out →
      ("width_right" ∉ df.cols → "image_width" ∉ df.cols → "image_width" ∉ out.cols) ∧
      ("height_right" ∉ df.cols → "image_height" ∉ df.cols → "image_height" ∉ out.cols) ∧
      ("key" ∉ df.cols → "image_id" ∉ df.cols → "image_id" ∉ out.cols)) := by
  refine ⟨fun e he => dropRenameSteps_never_missing df e he, fun out hout => ⟨?_, ?_, ?_⟩⟩
  · intro hW hT
    refine not_mem_base_of df out hout _ (fun c hc => ?_)
    rcases applyRenameName_origin c _ hc with ⟨rfl, _⟩ | ⟨rfl, _⟩ | ⟨_, hdd⟩ | ⟨_, hdd⟩
    · exact hT
    · exact hW
    · exact absurd hdd (by decide)
    · exact absurd hdd (by decide)
  · intro hH hT
    refine not_mem_base_of df out hout _ (fun c hc => ?_)
    rcases applyRenameName_origin c _ hc with ⟨rfl, _⟩ | ⟨_, hdd⟩ | ⟨rfl, _⟩ | ⟨_, hdd⟩
    · exact hT
    · exact absurd hdd (by decide)
    · exact hH
    · exact absurd hdd (by decide)
  · intro hK hT
    refine not_mem_base_of df out hout _ (fun c hc => ?_)
    rcases applyRenameName_origin c _ hc with ⟨rfl, _⟩ | ⟨_, hdd⟩ | ⟨_, hdd⟩ | ⟨rfl, _⟩
    · exact hT
    · exact absurd hdd (by decide)
    · exact absurd hdd (by decide)
    · exact hK

/-- Witness for C10: the amended statement applied to a table holding
only a url and a caption column. -/
theorem c10_guarded_steps_witness :
    (∀ e, dropRenameSteps { cols := ["url", "caption"], rows := [] } = .error e →
      e = "DuplicateError") ∧
    (∀ out, dropRenameSteps { cols := ["url", "caption"], rows := [] } = .ok out →
      ("width_right" ∉ ({ cols := ["url", "caption"], rows := [] } : DF).cols →
        "image_width" ∉ ({ cols := ["url", "caption"], rows := [] } : DF).cols →
        "image_width" ∉ out.cols) ∧
      ("height_right" ∉ ({ cols := ["url", "caption"], rows := [] } : DF).cols →
        "image_height" ∉ ({ cols := ["url", "caption"], rows := [] } : DF).cols →
        "image_height" ∉ out.cols) ∧
      ("key" ∉ ({ cols := ["url", "caption"], rows := [] } : DF).cols →
        "image_id" ∉ ({ cols := ["url", "caption"], rows := [] } : DF).cols →
        "image_id" ∉ out.cols)) :=
  c10_guarded_steps { cols := ["url", "caption"], rows := [] }

/-- Claim C8: when the input location is unreachable or contains zero
eligible shard files, the run fails with the fatal enumeration error
(FileNotFoundError in the notebook), terminates, and writes nothing: the
filesystem state is returned unchanged. -/
theorem c8_enumeration_fatal (cfg : RunConfig) (st : FsState) (failAt : Option Nat)
    (h : cfg.origExists = false ∨ eligibleShards cfg.origListing = [] ∨
      eligibleShards cfg.dlListing = []) :
    (∃ e, (runPipeline cfg st failAt).1 = .error e) ∧ (runPipeline cfg st failAt).2 = st := by
  rcases h with h | h | h
  · simp [runPipeline, enumerateLocal, h]
  · cases hb : cfg.origExists <;>
      simp [runPipeline, enumerateLocal, h, hb]
  · cases h1 : enumerateLocal cfg.origExists cfg.origListing with
    | error e => simp [runPipeline, h1]
    | ok fs => simp [runPipeline, h1, enumerateRemote, h]

/-- Witness for C8: a run whose remote listing holds no parquet file fails
with an error and leaves the empty filesystem untouched. -/
theorem c8_enumeration_fatal_witness :
    (∃ e, (runPipeline emptyRun fs0 none).1 = .error e) ∧
      (runPipeline emptyRun fs0 none).2 = fs0 :=
  c8_enumeration_fatal emptyRun fs0 none (by decide)

end PD12M
